import Mathlib

/-!
Verification of the raypp repository's core pipelines against its
natural-language specification.

The development shallowly embeds the relevant Python code:

* the fixed-window chunker with overlap (src/services/ingest.py,
  Ingestor._chunk_text),
* the ingestion pipeline with batched upserts (Ingestor.ingest_files,
  Ingestor._embed),
* the ask pipeline with cache lookup, embedding, vector search,
  completion, cache write and history scheduling
  (src/router/base_route.py, ask and embed_text),
* the vector query endpoint (app/api/routes.py, query_vectors).

Python strings are modelled as List Char (slicing text[a:b] becomes
(text.drop a).take b-a on the suffix), machine floats produced by the
deterministic dummy embedding len(text)/100.0 are modelled in Rat (the
claims about them are structural, not about rounding), and every external
collaborator (redis, qdrant, chroma, hashlib, the OpenAI client, json,
the filesystem) is an abstract function supplied by an environment
record, with the pipeline returning a trace of the calls it performed so
that frame conditions (what was and was not invoked) are provable.
The Python while-loop of the chunker has no termination guarantee, so it
is embedded with explicit fuel; a result of none models divergence of
the source loop.
-/

/-! ## Chunker (Ingestor._chunk_text) -/

/-- One Python slice: text[start : start + len]. -/
def pySlice (text : List Char) (start len : Nat) : List Char :=
  (text.drop start).take len

/-- The body of the chunking while-loop of Ingestor._chunk_text, with
fuel. Each iteration appends text[start : start + W] and moves start to
start + W - O, clamped below at 0 exactly as the Python code clamps a
negative start (Nat subtraction performs that clamp). A result of none
means the fuel ran out, i.e. the source loop ran longer than the fuel. -/
def chunkAux (W O : Nat) (text : List Char) : Nat → Nat → Option (List (List Char))
  | 0, _ => none
  | fuel + 1, start =>
    if start < text.length then
      (chunkAux W O text fuel (start + W - O)).map
        (fun rest => pySlice text start W :: rest)
    else
      some []

/-- Ingestor._chunk_text: empty text short-circuits to []; otherwise the
loop runs. Fuel text.length + 1 is enough whenever the advance step is
positive (O < W), which is proved below; with a non-positive step the
source loop diverges and this returns none. -/
def chunk_text (W O : Nat) (text : List Char) : Option (List (List Char)) :=
  if text.isEmpty then some [] else chunkAux W O text (text.length + 1) 0

/-- The loop of the chunker never terminates on this input: no amount of
fuel completes it (start never advances). -/
def chunkLoopsForever (W O : Nat) (text : List Char) : Prop :=
  ∀ fuel, chunkAux W O text fuel 0 = none

/-- The windows the spec describes: text[i : i + W] starting at i = 0 and
advancing by W - O each step, one window per start position below the
text length. -/
def windowsSpec (W O : Nat) (text : List Char) : List (List Char) :=
  (List.range ((text.length + (W - O) - 1) / (W - O))).map
    (fun k => pySlice text (k * (W - O)) W)

/-- Number of windows still to be produced from a given start. -/
def chunkCount (W O : Nat) (text : List Char) (start : Nat) : Nat :=
  if start < text.length then (text.length - start - 1) / (W - O) + 1 else 0

/-- Overlap property of a chunk list: every consecutive pair whose first
member has the full window length W agrees on exactly O characters: the
O-suffix of the first equals the O-prefix of the second, and that prefix
really has O characters. -/
def overlapOK (W O : Nat) : List (List Char) → Bool
  | [] => true
  | [_] => true
  | a :: b :: rest =>
    (!(a.length == W) || (decide (a.drop (W - O) = b.take O) && (b.take O).length == O))
      && overlapOK W O (b :: rest)

/-- The overlap clause exactly as the claim states it: every consecutive
pair, except possibly the pair involving the final chunk, shares exactly
O characters (O-suffix of the first equals O-prefix of the second). -/
def claimPairsOK (O : Nat) (cs : List (List Char)) : Bool :=
  ((cs.zip cs.tail).dropLast).all
    (fun p => decide (p.1.drop (p.1.length - O) = p.2.take O))

/-- De-overlapping: the first chunk followed by every later chunk
stripped of its first O characters. -/
def deOverlap (O : Nat) : List (List Char) → List Char
  | [] => []
  | c :: rest => c ++ (rest.map (List.drop O)).flatten

/-! ## Ingestion pipeline (Ingestor.ingest_files, Ingestor._embed) -/

/-- Python truthiness of an optional string (None and the empty string
are falsy). -/
def pyTruthyStr : Option String → Bool
  | none => false
  | some s => !s.isEmpty

/-- The deterministic fallback embedding of Ingestor._embed and
embed_text: a 384-dimensional vector whose every component is
len(text)/100.0, for text given as a character list. -/
def dummyVecL (t : List Char) : List Rat :=
  List.replicate 384 ((t.length : Rat) / 100)

/-- Abstract collaborators of the ingestion pipeline: the configured
OPENAI_API_KEY, whether the openai module imported, the remote embedding
call, os.path.exists and the file read (the utf-8 decode with
errors=ignore never raises, so a successful read yields text directly;
an error models an OSError from open/read). -/
structure IngestEnv where
  apiKey : Option String
  openaiAvailable : Bool
  remoteEmbed : List Char → Except String (List Rat)
  pathExists : String → Bool
  readText : String → Except Unit (List Char)

/-- The Ingestor's constructor parameters (defaults in the source:
collection_name = default, chunk_size = 1000, overlap = 200). -/
structure Ingestor where
  collection_name : String
  chunk_size : Nat
  overlap : Nat

/-- One element of the saved_files list: a dict with keys filename and
path, each possibly absent. -/
structure SavedFile where
  filename : Option String
  path : Option String

/-- A qdrant PointStruct as built by ingest_files. The id is a fresh
uuid4().hex, external randomness that no claim depends on, so it is not
modelled. -/
structure Point where
  vector : List Rat
  filename : Option String
  chunk_index : Nat
  text : List Char

/-- Ingestor._embed: when an API key is configured (non-empty, Python
truthiness) and the openai module is importable, the remote embedding
call is made and its outcome — including failure — is returned as is
(there is no try/except in _embed); otherwise the deterministic dummy
embedding is returned. -/
def ingestEmbed (env : IngestEnv) (text : List Char) : Except String (List Rat) :=
  if pyTruthyStr env.apiKey && env.openaiAvailable then env.remoteEmbed text
  else Except.ok (dummyVecL text)

/-- The per-file loop of ingest_files over the chunk list: embed each
chunk, append the point, flush a batch to upsert whenever 64 points have
accumulated, and flush the final partial batch at the end. Returns the
list of upserted batches in order and, if some embedding call raised,
the error that escapes ingest_files (points accumulated but not yet
flushed at that moment are lost, exactly as in the source). -/
def embedChunks (env : IngestEnv) (fname : Option String) :
    List (List Char) → Nat → List Point → List (List Point) × Option String
  | [], _, points => (if points.isEmpty then [] else [points], none)
  | c :: rest, i, points =>
    match ingestEmbed env c with
    | Except.error e => ([], some e)
    | Except.ok emb =>
      if 64 ≤ (points ++ [Point.mk emb fname i c]).length then
        ((points ++ [Point.mk emb fname i c]) :: (embedChunks env fname rest (i + 1) []).1,
          (embedChunks env fname rest (i + 1) []).2)
      else
        embedChunks env fname rest (i + 1) (points ++ [Point.mk emb fname i c])

/-- Processing of one saved file inside ingest_files: a missing path, an
empty path (falsy in Python) or a non-existing path is skipped
(continue); a read error yields empty text, which chunks to [] and so
contributes nothing; otherwise the text is chunked and the chunk loop
runs. none models divergence of the chunking loop. -/
def processFile (env : IngestEnv) (ing : Ingestor) (f : SavedFile) :
    Option (List (List Point) × Option String) :=
  match f.path with
  | none => some ([], none)
  | some p =>
    if p.isEmpty || !(env.pathExists p) then some ([], none)
    else
      match chunk_text ing.chunk_size ing.overlap
          (match env.readText p with
           | Except.ok t => t
           | Except.error _ => []) with
      | none => none
      | some cs => some (embedChunks env f.filename cs 0 [])

/-- The file loop of ingest_files, accumulating the trace of upserted
batches and the running total of inserted points; an embedding error
aborts the loop and escapes (the batches upserted before it remain
performed). -/
def ingestGo (env : IngestEnv) (ing : Ingestor) :
    List SavedFile → List (List Point) → Nat →
      Option (List (List Point) × Except String Nat)
  | [], trace, total => some (trace, Except.ok total)
  | f :: rest, trace, total =>
    match processFile env ing f with
    | none => none
    | some (bs, some e) => some (trace ++ bs, Except.error e)
    | some (bs, none) =>
      ingestGo env ing rest (trace ++ bs) (total + (bs.map List.length).sum)

/-- Ingestor.ingest_files: iterate over the saved files and return the
upsert trace together with the inserted count (or the escaping
embedding error). -/
def ingest_files (env : IngestEnv) (ing : Ingestor) (files : List SavedFile) :
    Option (List (List Point) × Except String Nat) :=
  ingestGo env ing files [] 0

/-- The batch sizes the flushing loop produces, computed from the number
of pending points and the number of chunks still to process. -/
def sizesSpec : Nat → Nat → List Nat
  | k, 0 => if k = 0 then [] else [k]
  | k, n + 1 => if 64 ≤ k + 1 then 64 :: sizesSpec 0 n else sizesSpec (k + 1) n

/-- A file that is missing (no path, empty path, or path not on disk) or
unreadable (read raises). -/
def badFile (env : IngestEnv) (f : SavedFile) : Prop :=
  f.path = none
    ∨ (∃ p, f.path = some p ∧ p.isEmpty = true)
    ∨ (∃ p, f.path = some p ∧ env.pathExists p = false)
    ∨ (∃ p, f.path = some p ∧ env.readText p = Except.error ())

/-! ## Ask pipeline (base_route.ask, embed_text, build_prompt) -/

/-- A JSON value, the shape of json.loads results and of the response
dicts the ask endpoint returns. -/
inductive JVal where
  | null
  | bool (b : Bool)
  | num (q : Rat)
  | str (s : String)
  | arr (elems : List JVal)
  | obj (fields : List (String × JVal))

/-- One qdrant search hit as the ask pipeline consumes it: the payload
keys it reads (each possibly absent) and str(h.id). -/
structure Hit where
  payload_text : Option String
  payload_content : Option String
  payload_filename : Option String
  payload_source : Option String
  idStr : String

/-- Python's x or y for an optional string x: None and the empty string
fall through to y. -/
def orFalsy : Option String → String → String
  | none, b => b
  | some s, b => if s.isEmpty then b else s

/-- payload.get(text) or payload.get(content) or the empty string. -/
def hitText (h : Hit) : String :=
  orFalsy h.payload_text (orFalsy h.payload_content (""))

/-- payload.get(filename) or payload.get(source) or str(h.id). -/
def hitSrc (h : Hit) : String :=
  orFalsy h.payload_filename (orFalsy h.payload_source h.idStr)

/-- Python str.strip(): drop whitespace from both ends. -/
def pyStrip (s : String) : String :=
  String.mk
    (((s.data.dropWhile Char.isWhitespace).reverse.dropWhile Char.isWhitespace).reverse)

/-- base_route.build_prompt: fixed preamble, numbered sources in
retrieval order, then the question and the answer cue. -/
def build_prompt (question : String) (contexts : List String) : String :=
  (contexts.enum.foldl
    (fun acc ic =>
      acc ++ "Source " ++ toString (ic.1 + 1) ++ ":\n" ++ ic.2 ++ "\n\n")
    ("You are a helpful assistant. Use only the following sources to answer the question. If the answer is not found, say you don't know.\n\n"))
    ++ "Question: " ++ question ++ "\nAnswer:"

/-- The AskRequest body (source defaults: collection_name = default,
top_k = 5, use_cache = True). -/
structure AskRequest where
  question : String
  collection_name : String
  top_k : Nat
  use_cache : Bool

/-- Abstract collaborators of the ask pipeline. sha256hex models
hashlib.sha256(utf8 text).hexdigest(); parse and dumps model json.loads
and json.dumps; redisAvailable is whether get_redis produced a client;
the cache operations, the remote embedding call, the qdrant search and
the OpenAI chat completion may each fail. elapsedMs is the wall-clock
measurement, an external quantity. -/
structure AskEnv where
  cachePfx : String
  ttl : Nat
  redisAvailable : Bool
  sha256hex : String → String
  cacheGet : String → Except String (Option String)
  cacheDelete : String → Except String Unit
  cacheSetex : String → Nat → String → Except String Unit
  parse : String → Option JVal
  dumps : JVal → String
  apiKey : Option String
  openaiAvailable : Bool
  remoteEmbed : String → Except String (List Rat)
  search : String → List Rat → Nat → Except String (List Hit)
  complete : String → Except String (String × Option Nat)
  elapsedMs : Rat

/-- The external calls the ask pipeline can perform, in order. -/
inductive Eff where
  | cacheGet (key : String)
  | cacheDelete (key : String)
  | embed
  | search (collection : String) (vector : List Rat) (limit : Nat)
  | complete (prompt : String)
  | cacheSetex (key : String) (ttl : Nat) (value : String)
  | history (question answer : String) (tokens : Option Nat) (sources : List String)
deriving DecidableEq

/-- Outcome of one ask request: a JSON response body, or one of the
three HTTPException(500) branches of the source, tagged by stage. -/
inductive AskOutcome where
  | ok (body : JVal)
  | errEmbedding (msg : String)
  | errSearch (msg : String)
  | errOpenai (msg : String)

/-- The deterministic fallback embedding for a question string. -/
def dummyVecS (s : String) : List Rat :=
  List.replicate 384 ((s.length : Rat) / 100)

/-- base_route.embed_text: remote embedding when a (truthy) API key and
the openai module are present, falling back to the dummy embedding on
any remote failure; dummy embedding otherwise. -/
def embed_text (env : AskEnv) (text : String) : Except String (List Rat) :=
  if pyTruthyStr env.apiKey && env.openaiAvailable then
    match env.remoteEmbed text with
    | Except.ok v => Except.ok v
    | Except.error _ => Except.ok (dummyVecS text)
  else Except.ok (dummyVecS text)

/-- The vector embed_text returns (it never fails, proved below). -/
def embedVal (env : AskEnv) (text : String) : List Rat :=
  if pyTruthyStr env.apiKey && env.openaiAvailable then
    match env.remoteEmbed text with
    | Except.ok v => v
    | Except.error _ => dummyVecS text
  else dummyVecS text

/-- The response dict of a fresh answer:
answer, sources, tokens, time_ms. -/
def respJVal (answer : String) (sources : List String) (tokens : Option Nat)
    (t : Rat) : JVal :=
  JVal.obj [("answer", JVal.str answer),
    ("sources", JVal.arr (sources.map JVal.str)),
    ("tokens", match tokens with | some n => JVal.num (n : Rat) | none => JVal.null),
    ("time_ms", JVal.num t)]

/-- The cache key exactly as the ask handler computes it:
CACHE_PREFIX, collection name, and the first 8 hex characters of the
question's sha256, joined by colons. -/
def cacheKey (env : AskEnv) (req : AskRequest) : String :=
  env.cachePfx ++ ":" ++ req.collection_name ++ ":"
    ++ (env.sha256hex req.question).take 8

/-- The cache key as the specification words it: the string
prefix, colon, collection_name, colon, first-8-hex-chars-of-sha256 of
the question. Stated separately from cacheKey so the code's key can be
compared against the spec's format. -/
def cacheKeySpec (env : AskEnv) (req : AskRequest) : String :=
  env.cachePfx ++ ":" ++ req.collection_name ++ ":"
    ++ (env.sha256hex req.question).take 8

/-- A call whose outcome the source discards inside try/except pass:
the result is consumed but the continuation does not depend on it. -/
def swallow {α : Type} (r : Except String α) (effs : List Eff) : List Eff :=
  match r with
  | _ => effs

/-- Prepend already-performed effects to a pipeline result. -/
def addEffs (pre : List Eff) (r : AskOutcome × List Eff) : AskOutcome × List Eff :=
  (r.1, pre ++ r.2)

/-- The cache-miss tail of the ask handler: embed the question, search
qdrant, build the prompt, call the chat completion, then (when caching
is on and redis is reachable) setex the serialized bundle — its failure
swallowed — and schedule the history write. Any search or completion
failure aborts with the corresponding HTTPException(500). -/
def askMiss (env : AskEnv) (req : AskRequest) (key : String) :
    AskOutcome × List Eff :=
  match embed_text env req.question with
  | Except.error e => (AskOutcome.errEmbedding e, [Eff.embed])
  | Except.ok vec =>
    match env.search req.collection_name vec req.top_k with
    | Except.error e =>
      (AskOutcome.errSearch e,
        [Eff.embed, Eff.search req.collection_name vec req.top_k])
    | Except.ok hits =>
      match env.complete (build_prompt req.question (hits.map hitText)) with
      | Except.error e =>
        (AskOutcome.errOpenai e,
          [Eff.embed, Eff.search req.collection_name vec req.top_k,
            Eff.complete (build_prompt req.question (hits.map hitText))])
      | Except.ok r =>
        (AskOutcome.ok (respJVal (pyStrip r.1) (hits.map hitSrc) r.2 env.elapsedMs),
          [Eff.embed, Eff.search req.collection_name vec req.top_k,
            Eff.complete (build_prompt req.question (hits.map hitText))]
          ++ (if req.use_cache && env.redisAvailable then
                swallow
                  (env.cacheSetex key env.ttl
                    (env.dumps (respJVal (pyStrip r.1) (hits.map hitSrc) r.2 env.elapsedMs)))
                  [Eff.cacheSetex key env.ttl
                    (env.dumps (respJVal (pyStrip r.1) (hits.map hitSrc) r.2 env.elapsedMs))]
              else [])
          ++ [Eff.history req.question (pyStrip r.1) r.2 (hits.map hitSrc)])

/-- base_route.ask. When caching is requested and redis reachable, the
key is fetched: a get error is logged and ignored; an absent or empty
(falsy) value is a miss; a value that parses is returned verbatim with
no further work; a value that fails to parse triggers a delete — itself
swallowed — and the miss path. Otherwise the miss path runs directly. -/
def ask (env : AskEnv) (req : AskRequest) : AskOutcome × List Eff :=
  if req.use_cache && env.redisAvailable then
    match env.cacheGet (cacheKey env req) with
    | Except.error _ =>
      addEffs [Eff.cacheGet (cacheKey env req)] (askMiss env req (cacheKey env req))
    | Except.ok none =>
      addEffs [Eff.cacheGet (cacheKey env req)] (askMiss env req (cacheKey env req))
    | Except.ok (some s) =>
      if s.isEmpty then
        addEffs [Eff.cacheGet (cacheKey env req)] (askMiss env req (cacheKey env req))
      else
        match env.parse s with
        | some v => (AskOutcome.ok v, [Eff.cacheGet (cacheKey env req)])
        | none =>
          addEffs
            (Eff.cacheGet (cacheKey env req)
              :: swallow (env.cacheDelete (cacheKey env req))
                [Eff.cacheDelete (cacheKey env req)])
            (askMiss env req (cacheKey env req))
  else askMiss env req (cacheKey env req)

/-- Is this outcome the Embedding error branch? -/
def isEmbErr : AskOutcome → Bool
  | AskOutcome.errEmbedding _ => true
  | _ => false

/-- The cache key an effect addresses, when it is a cache operation. -/
def effKey : Eff → Option String
  | Eff.cacheGet k => some k
  | Eff.cacheDelete k => some k
  | Eff.cacheSetex k _ _ => some k
  | _ => none

/-! ## Vector query endpoint (app/api/routes.py, query_vectors) -/

/-- Python truthiness of an optional list (None and [] are falsy). -/
def pyTruthyList {α : Type} : Option (List α) → Bool
  | none => false
  | some l => !l.isEmpty

/-- The VectorQueryRequest body. -/
structure QueryReq where
  collection_name : String
  query_texts : Option (List String)
  query_embeddings : Option (List (List Rat))
  n_results : Nat

/-- Abstract collaborators of query_vectors: get_chromadb (with the
embedding-function import and DefaultEmbeddingFunction construction
folded in) and collection.query. The get_or_create_collection step is
NOT an abstract collaborator: routes.py calls the in-repo wrapper with
a keyword its signature rejects, a deterministic TypeError modelled by
routesGetOrCreateCall below. -/
structure QueryEnv where
  getChroma : Except String Unit
  runQuery : String → List (List Rat) → Nat → Except String JVal

/-- The external calls query_vectors can perform. No effect exists for
get_or_create_collection because the wrapper body is never entered:
the call raises at Python argument binding, before any collection is
created or contacted. -/
inductive QEff where
  | getClient
  | query (name : String) (embeddings : List (List Rat)) (n : Nat)
deriving DecidableEq

/-- Outcome of query_vectors: a body, or an HTTPException with a code
(400 for validation, 500 for failures inside the try block). -/
inductive QOutcome where
  | ok (body : JVal)
  | httpError (code : Nat) (detail : String)

/-- The chroma_client.get_or_create_collection(name=...,
embedding_function=ef) call of routes.py line 192: the client returned
by get_chromadb() is the repository's own ChromaDBClient wrapper, whose
get_or_create_collection (app/db/chroma_client.py line 17) has
signature (self, name) — the embedding_function keyword is rejected at
argument binding, so the call deterministically raises TypeError before
the wrapper body runs and before the chroma backend is contacted. -/
def routesGetOrCreateCall (name : String) : Except String Unit :=
  Except.error ("get_or_create_collection() got an unexpected keyword argument embedding_function")

/-- The collection.query call and response assembly shared by both
query branches of query_vectors (unreachable in the source, see
routesGetOrCreateCall). -/
def queryStep (env : QueryEnv) (req : QueryReq) (embs : List (List Rat)) :
    QOutcome × List QEff :=
  match env.runQuery req.collection_name embs req.n_results with
  | Except.error e =>
    (QOutcome.httpError 500 ("ChromaDB error: " ++ e),
      [QEff.getClient, QEff.query req.collection_name embs req.n_results])
  | Except.ok r =>
    (QOutcome.ok (JVal.obj [("status", JVal.str ("ok")), ("results", r)]),
      [QEff.getClient, QEff.query req.collection_name embs req.n_results])

/-- routes.query_vectors: obtain the chroma client, then call
get_or_create_collection — which, see routesGetOrCreateCall, always
raises TypeError, turned into the generic 500 by the except-Exception
handler — and only past that the source branches on the (Python-truthy)
presence of query_embeddings or query_texts, raising HTTPException(400)
when neither is supplied; text queries would be embedded with the same
length-based 384-dimensional dummy embedding the module uses elsewhere.
Every branch below the get-or-create match is dead code in the
source, kept here so the definition mirrors the program text. -/
def query_vectors (env : QueryEnv) (req : QueryReq) : QOutcome × List QEff :=
  match env.getChroma with
  | Except.error e =>
    (QOutcome.httpError 500 ("ChromaDB error: " ++ e), [QEff.getClient])
  | Except.ok _ =>
    match routesGetOrCreateCall req.collection_name with
    | Except.error e =>
      (QOutcome.httpError 500 ("ChromaDB error: " ++ e), [QEff.getClient])
    | Except.ok _ =>
      if pyTruthyList req.query_embeddings then
        queryStep env req (req.query_embeddings.getD [])
      else if pyTruthyList req.query_texts then
        queryStep env req ((req.query_texts.getD []).map dummyVecS)
      else
        (QOutcome.httpError 400 ("Must provide either query_texts or query_embeddings"),
          [QEff.getClient])

/-! ## Concrete sample environments used to instantiate the theorems -/

/-- A sample search hit with a text payload and a filename. -/
def hitA : Hit :=
  { payload_text := some ("ctx one"), payload_content := none,
    payload_filename := some ("doc.txt"), payload_source := none,
    idStr := "id1" }

/-- An ask environment whose cache holds a value that parses. -/
def envHit : AskEnv :=
  { cachePfx := "rag", ttl := 3600, redisAvailable := true,
    sha256hex := fun _ => "0123456789abcdef",
    cacheGet := fun _ => Except.ok (some ("cachedvalue")),
    cacheDelete := fun _ => Except.ok (),
    cacheSetex := fun _ _ _ => Except.ok (),
    parse := fun s => if s = "cachedvalue" then some (JVal.str ("stored answer")) else none,
    dumps := fun _ => "serialized",
    apiKey := none, openaiAvailable := false,
    remoteEmbed := fun _ => Except.error ("no net"),
    search := fun _ _ _ => Except.ok [hitA],
    complete := fun _ => Except.ok (("  an answer  "), some 10),
    elapsedMs := 5 }

/-- The same environment with a cache value that fails to parse. -/
def envCorrupt : AskEnv :=
  { envHit with
    cacheGet := fun _ => Except.ok (some ("corrupt"))
    parse := fun _ => none }

/-- The same environment with an empty (Python-falsy) cached value,
which also fails to parse. -/
def envEmptyCache : AskEnv :=
  { envHit with
    cacheGet := fun _ => Except.ok (some (""))
    parse := fun _ => none }

/-- A sample ask request. -/
def reqA : AskRequest :=
  { question := "What is X?", collection_name := "default",
    top_k := 2, use_cache := true }

/-- An ingestion environment with no API key: the dummy embedding is
used throughout. One readable file a.txt of 130 characters exists. -/
def envIngest : IngestEnv :=
  { apiKey := none, openaiAvailable := false,
    remoteEmbed := fun _ => Except.error ("no net"),
    pathExists := fun p => p = "a.txt",
    readText := fun p =>
      if p = "a.txt" then Except.ok (List.replicate 130 'a') else Except.error () }

/-- An ingestion environment with a configured key whose remote
embedding call fails. -/
def envEmbedFail : IngestEnv :=
  { apiKey := some ("k"), openaiAvailable := true,
    remoteEmbed := fun _ => Except.error ("boom"),
    pathExists := fun _ => true,
    readText := fun _ => Except.ok [] }

/-- An Ingestor with window 1 and overlap 0, so a 130-character file
produces exactly 130 chunks. -/
def ingTiny : Ingestor :=
  { collection_name := "default", chunk_size := 1, overlap := 0 }

/-- The readable saved file. -/
def fileA : SavedFile := { filename := some ("a.txt"), path := some ("a.txt") }

/-- A saved file with no path at all. -/
def fileMissing : SavedFile := { filename := some ("gone.txt"), path := none }

/-- A chroma environment where the client is obtained and the backend
query would succeed. -/
def envQ : QueryEnv :=
  { getChroma := Except.ok (),
    runQuery := fun _ _ _ => Except.ok JVal.null }

/-- A vector query request supplying neither texts nor embeddings. -/
def reqQ : QueryReq :=
  { collection_name := "c", query_texts := none,
    query_embeddings := none, n_results := 5 }

/-! ### Slice arithmetic helpers -/

theorem pySlice_drop (text : List Char) (start W k : Nat) :
    (pySlice text start W).drop k = pySlice text (start + k) (W - k) := by
  simp only [pySlice, List.drop_take, List.drop_drop]

theorem pySlice_take (text : List Char) (start W k : Nat) (hk : k ≤ W) :
    (pySlice text start W).take k = pySlice text start k := by
  simp only [pySlice, List.take_take]
  rw [min_eq_left hk]

theorem pySlice_length (text : List Char) (start W : Nat) :
    (pySlice text start W).length = min W (text.length - start) := by
  simp [pySlice]

/-! ### Chunker lemmas -/

theorem chunkAux_windows (W O : Nat) (text : List Char) (hO : O < W) :
    ∀ fuel start, text.length ≤ start + fuel →
      chunkAux W O text (fuel + 1) start =
        some ((List.range (chunkCount W O text start)).map
          (fun k => pySlice text (start + k * (W - O)) W)) := by
  intro fuel
  induction fuel with
  | zero =>
    intro start h
    have hns : ¬ start < text.length := by omega
    rw [chunkAux, if_neg hns, chunkCount, if_neg hns]
    rfl
  | succ fuel ih =>
    intro start h
    by_cases hs : start < text.length
    · have hstep : start + W - O = start + (W - O) := by omega
      have hrec := ih (start + (W - O)) (by omega)
      rw [chunkAux, if_pos hs, hstep, hrec, Option.map_some']
      have hcnt : chunkCount W O text start
          = (text.length - start - 1) / (W - O) + 1 := by
        rw [chunkCount, if_pos hs]
      have htail : chunkCount W O text (start + (W - O))
          = (text.length - start - 1) / (W - O) := by
        by_cases ht : start + (W - O) < text.length
        · rw [chunkCount, if_pos ht]
          have hx : text.length - start - 1
              = (text.length - (start + (W - O)) - 1) + (W - O) := by omega
          rw [hx, Nat.add_div_right _ (by omega : 0 < W - O)]
        · rw [chunkCount, if_neg ht]
          symm
          exact Nat.div_eq_of_lt (by omega)
      rw [hcnt, htail, List.range_succ_eq_map]
      simp only [List.map_cons, List.map_map, Option.some.injEq, List.cons.injEq]
      refine ⟨by simp [pySlice], ?_⟩
      apply List.map_congr_left
      intro k _
      simp only [Function.comp_apply, Nat.succ_eq_add_one]
      congr 1
      ring
    · rw [chunkAux, if_neg hs, chunkCount, if_neg hs]
      rfl

theorem chunkAux_isSome (W O : Nat) (text : List Char) (hO : O < W)
    (fuel start : Nat) (h : text.length ≤ start + fuel) :
    (chunkAux W O text (fuel + 1) start).isSome = true := by
  rw [chunkAux_windows W O text hO fuel start h]
  rfl

theorem chunkAux_head (W O : Nat) (text : List Char) (fuel start : Nat)
    (b : List Char) (rest : List (List Char))
    (h : chunkAux W O text (fuel + 1) start = some (b :: rest)) :
    b = pySlice text start W ∧ start < text.length := by
  rw [chunkAux] at h
  by_cases hs : start < text.length
  · rw [if_pos hs] at h
    cases hx : chunkAux W O text fuel (start + W - O) with
    | none => rw [hx] at h; simp at h
    | some cs =>
      rw [hx, Option.map_some', Option.some.injEq] at h
      exact ⟨((List.cons.injEq _ _ _ _).mp h).1.symm, hs⟩
  · rw [if_neg hs] at h
    simp at h

theorem chunkAux_overlap (W O : Nat) (text : List Char) (hO : O < W) :
    ∀ fuel start cs, chunkAux W O text (fuel + 1) start = some cs →
      overlapOK W O cs = true := by
  intro fuel
  induction fuel with
  | zero =>
    intro start cs h
    rw [chunkAux] at h
    by_cases hs : start < text.length
    · rw [if_pos hs] at h
      rw [chunkAux] at h
      simp at h
    · rw [if_neg hs, Option.some.injEq] at h
      subst h
      rfl
  | succ fuel ih =>
    intro start cs h
    rw [chunkAux] at h
    by_cases hs : start < text.length
    · rw [if_pos hs] at h
      cases hx : chunkAux W O text (fuel + 1) (start + W - O) with
      | none => rw [hx] at h; simp at h
      | some cs' =>
        rw [hx, Option.map_some', Option.some.injEq] at h
        subst h
        have hrec := ih (start + W - O) cs' hx
        cases cs' with
        | nil => rfl
        | cons b rest =>
          have hb := chunkAux_head W O text fuel (start + W - O) b rest hx
          have hstep : start + W - O = start + (W - O) := by omega
          rw [overlapOK, hrec, Bool.and_true]
          by_cases hfull : (pySlice text start W).length = W
          · have hWle : start + W ≤ text.length := by
              have := hfull
              rw [pySlice_length] at this
              omega
            have hsuffix : (pySlice text start W).drop (W - O)
                = pySlice text (start + (W - O)) O := by
              rw [pySlice_drop]
              congr 1
              omega
            have hb2 : b.take O = pySlice text (start + (W - O)) O := by
              rw [hb.1, hstep, pySlice_take _ _ _ _ (by omega : O ≤ W)]
            have hXlen : (pySlice text (start + (W - O)) O).length = O := by
              rw [pySlice_length]
              omega
            have hcond : (decide ((pySlice text start W).drop (W - O) = b.take O)
                && ((b.take O).length == O)) = true := by
              rw [hsuffix, hb2, hXlen]
              simp
            rw [hcond, Bool.or_true]
          · have hne : ((pySlice text start W).length == W) = false := by
              simp [hfull]
            rw [hne]
            rfl
    · rw [if_neg hs, Option.some.injEq] at h
      subst h
      rfl

theorem chunkAux_deOverlap (W O : Nat) (text : List Char) (hO : O < W) :
    ∀ fuel start cs, chunkAux W O text (fuel + 1) start = some cs →
      (cs.map (List.drop O)).flatten = text.drop (start + O) := by
  intro fuel
  induction fuel with
  | zero =>
    intro start cs h
    rw [chunkAux] at h
    by_cases hs : start < text.length
    · rw [if_pos hs] at h
      rw [chunkAux] at h
      simp at h
    · rw [if_neg hs, Option.some.injEq] at h
      subst h
      simp only [List.map_nil, List.flatten_nil]
      symm
      exact List.drop_eq_nil_of_le (by omega)
  | succ fuel ih =>
    intro start cs h
    rw [chunkAux] at h
    by_cases hs : start < text.length
    · rw [if_pos hs] at h
      cases hx : chunkAux W O text (fuel + 1) (start + W - O) with
      | none => rw [hx] at h; simp at h
      | some cs' =>
        rw [hx, Option.map_some', Option.some.injEq] at h
        subst h
        have hrec := ih (start + W - O) cs' hx
        have hstep : start + W - O + O = (start + O) + (W - O) := by omega
        rw [hstep] at hrec
        simp only [List.map_cons, List.flatten_cons, hrec]
        have hhead : (pySlice text start W).drop O
            = (text.drop (start + O)).take (W - O) := by
          rw [pySlice_drop, pySlice]
        have htail : text.drop (start + O + (W - O))
            = (text.drop (start + O)).drop (W - O) := by
          rw [List.drop_drop]
        rw [hhead, htail, List.take_append_drop]
    · rw [if_neg hs, Option.some.injEq] at h
      subst h
      simp only [List.map_nil, List.flatten_nil]
      symm
      exact List.drop_eq_nil_of_le (by omega)

theorem chunk_text_eq_windows (W O : Nat) (text : List Char) (hO : O < W) :
    chunk_text W O text = some (windowsSpec W O text) := by
  by_cases hempty : text.isEmpty
  · have hlen : text.length = 0 := by
      cases text with
      | nil => rfl
      | cons a l => simp [List.isEmpty] at hempty
    rw [chunk_text, if_pos hempty, windowsSpec, hlen]
    have hz : (0 + (W - O) - 1) / (W - O) = 0 := Nat.div_eq_of_lt (by omega)
    rw [hz]
    rfl
  · have hlen : 0 < text.length := by
      cases text with
      | nil => simp [List.isEmpty] at hempty
      | cons a l => simp
    rw [chunk_text, if_neg hempty]
    rw [chunkAux_windows W O text hO text.length 0 (by omega)]
    have hcnt : chunkCount W O text 0 = (text.length - 1) / (W - O) + 1 := by
      rw [chunkCount, if_pos hlen]
      simp
    have hws : (text.length + (W - O) - 1) / (W - O)
        = (text.length - 1) / (W - O) + 1 := by
      have hx : text.length + (W - O) - 1 = (text.length - 1) + (W - O) := by omega
      rw [hx, Nat.add_div_right _ (by omega : 0 < W - O)]
    rw [windowsSpec, hcnt, hws]
    congr 1
    apply List.map_congr_left
    intro k _
    simp

/-! ### Ingestion lemmas -/

theorem sizesSpec_closed : ∀ n k, k < 64 →
    sizesSpec k n = List.replicate ((k + n) / 64) 64
      ++ (if (k + n) % 64 = 0 then [] else [(k + n) % 64]) := by
  intro n
  induction n with
  | zero =>
    intro k hk
    have hd : k / 64 = 0 := Nat.div_eq_of_lt hk
    have hm : k % 64 = k := Nat.mod_eq_of_lt hk
    by_cases h0 : k = 0
    · simp [sizesSpec, h0]
    · simp [sizesSpec, h0, hd, hm]
  | succ n ih =>
    intro k hk
    rw [sizesSpec]
    by_cases hfl : 64 ≤ k + 1
    · have hk63 : k = 63 := by omega
      subst hk63
      rw [if_pos hfl, ih 0 (by omega)]
      have hx : 63 + (n + 1) = n + 64 := by omega
      rw [hx, Nat.add_div_right _ (by norm_num : 0 < 64), Nat.add_mod_right,
        List.replicate_succ]
      simp
    · rw [if_neg hfl, ih (k + 1) (by omega)]
      have hx : k + 1 + n = k + (n + 1) := by omega
      rw [hx]

theorem sizesSpec_sum : ∀ n k, k < 64 → (sizesSpec k n).sum = k + n := by
  intro n
  induction n with
  | zero =>
    intro k _
    by_cases h0 : k = 0
    · simp [sizesSpec, h0]
    · simp [sizesSpec, h0]
  | succ n ih =>
    intro k hk
    rw [sizesSpec]
    by_cases hfl : 64 ≤ k + 1
    · rw [if_pos hfl]
      have := ih 0 (by omega)
      simp only [List.sum_cons, this]
      omega
    · rw [if_neg hfl, ih (k + 1) (by omega)]
      omega

theorem embedChunks_spec (env : IngestEnv) (hkey : env.apiKey = none)
    (fname : Option String) :
    ∀ cs i points, points.length < 64 →
      (embedChunks env fname cs i points).2 = none ∧
      (embedChunks env fname cs i points).1.map List.length
        = sizesSpec points.length cs.length := by
  intro cs
  induction cs with
  | nil =>
    intro i points hp
    refine ⟨rfl, ?_⟩
    cases points with
    | nil => simp [embedChunks, sizesSpec]
    | cons q qs => simp [embedChunks, sizesSpec]
  | cons c rest ih =>
    intro i points hp
    have hembed : ingestEmbed env c = Except.ok (dummyVecL c) := by
      rw [ingestEmbed, hkey]
      rfl
    simp only [embedChunks, hembed]
    by_cases hfl : 64 ≤ (points ++ [Point.mk (dummyVecL c) fname i c]).length
    · rw [if_pos hfl]
      have hfl' : 64 ≤ points.length + 1 := by simpa using hfl
      have hrec := ih (i + 1) [] (by simp)
      refine ⟨hrec.1, ?_⟩
      simp only [List.map_cons]
      rw [hrec.2]
      simp only [List.length_nil, List.length_append, List.length_cons,
        List.length_cons, zero_add]
      rw [sizesSpec, if_pos hfl']
      congr 1
      omega
    · rw [if_neg hfl]
      have hfl' : ¬ 64 ≤ points.length + 1 := by simpa using hfl
      have hrec := ih (i + 1) (points ++ [Point.mk (dummyVecL c) fname i c])
        (by simp; omega)
      refine ⟨hrec.1, ?_⟩
      rw [hrec.2]
      simp only [List.length_append, List.length_cons, List.length_nil, zero_add]
      rw [sizesSpec, if_neg hfl']

theorem processFile_bad (env : IngestEnv) (ing : Ingestor) (f : SavedFile)
    (hbad : badFile env f) : processFile env ing f = some ([], none) := by
  rcases hbad with h | ⟨p, hp, he⟩ | ⟨p, hp, he⟩ | ⟨p, hp, he⟩
  · simp only [processFile, h]
  · simp only [processFile, hp]
    simp [he]
  · simp only [processFile, hp]
    simp [he]
  · by_cases hpe : p.isEmpty
    · simp only [processFile, hp]
      simp [hpe]
    · by_cases hex : env.pathExists p
      · simp only [processFile, hp, he, hex]
        rw [if_neg (by simp [hpe])]
        have hch : chunk_text ing.chunk_size ing.overlap ([] : List Char)
            = some [] := rfl
        rw [hch]
        rfl
      · simp only [processFile, hp]
        have hex' : env.pathExists p = false := by simpa using hex
        simp [hex']

theorem ingestGo_skip (env : IngestEnv) (ing : Ingestor) (f : SavedFile)
    (ys : List SavedFile) (hbad : badFile env f) :
    ∀ xs trace total, ingestGo env ing (xs ++ f :: ys) trace total
      = ingestGo env ing (xs ++ ys) trace total := by
  intro xs
  induction xs with
  | nil =>
    intro trace total
    simp only [List.nil_append]
    rw [ingestGo, processFile_bad env ing f hbad]
    simp
  | cons g rest ih =>
    intro trace total
    simp only [List.cons_append]
    rw [ingestGo, ingestGo]
    cases processFile env ing g with
    | none => rfl
    | some r =>
      rcases r with ⟨bs, err⟩
      cases err with
      | none => exact ih _ _
      | some e => rfl

/-! ### Ask pipeline lemmas -/

theorem swallow_eq {α : Type} (r : Except String α) (effs : List Eff) :
    swallow r effs = effs := rfl

theorem embed_text_eq (env : AskEnv) (text : String) :
    embed_text env text = Except.ok (embedVal env text) := by
  rw [embed_text, embedVal]
  by_cases h : pyTruthyStr env.apiKey && env.openaiAvailable
  · rw [if_pos h, if_pos h]
    cases hx : env.remoteEmbed text with
    | ok v => rfl
    | error e => rfl
  · rw [if_neg h, if_neg h]

theorem askMiss_keys (env : AskEnv) (req : AskRequest) (key : String) :
    ∀ e ∈ (askMiss env req key).2, ∀ k, effKey e = some k → k = key := by
  intro e hmem k hk
  simp only [askMiss, embed_text_eq] at hmem
  cases hs : env.search req.collection_name (embedVal env req.question) req.top_k with
  | error msg =>
    simp only [hs, List.mem_cons, List.not_mem_nil, or_false] at hmem
    rcases hmem with h | h <;> (subst h; simp [effKey] at hk)
  | ok hits =>
    simp only [hs] at hmem
    cases hc : env.complete (build_prompt req.question (hits.map hitText)) with
    | error msg =>
      simp only [hc, List.mem_cons, List.not_mem_nil, or_false] at hmem
      rcases hmem with h | h | h <;> (subst h; simp [effKey] at hk)
    | ok r =>
      simp only [hc, swallow_eq, List.mem_append, List.mem_cons,
        List.not_mem_nil, or_false] at hmem
      rcases hmem with ((h | h | h) | h) | h
      · subst h; simp [effKey] at hk
      · subst h; simp [effKey] at hk
      · subst h; simp [effKey] at hk
      · by_cases hcache : req.use_cache && env.redisAvailable
        · rw [if_pos hcache] at h
          simp only [List.mem_cons, List.not_mem_nil, or_false] at h
          subst h
          simp only [effKey, Option.some.injEq] at hk
          exact hk.symm
        · rw [if_neg hcache] at h
          simp at h
      · subst h; simp [effKey] at hk

theorem cacheKey_eq_spec (env : AskEnv) (req : AskRequest) :
    cacheKey env req = cacheKeySpec env req := rfl

/-! ## Claim theorems -/

/-- C1, counterexample: on the text 012345678 with window size 8 and
overlap 6 the chunker returns five chunks, and the consecutive pair of
the second and third chunks — neither of which is the final chunk —
does not share exactly 6 characters (the third chunk is only 5
characters long), so the claimed overlap property fails as stated. -/
theorem chunk_overlap_claim_cex :
    chunk_text 8 6 ['0','1','2','3','4','5','6','7','8']
      = some [['0','1','2','3','4','5','6','7'],
        ['2','3','4','5','6','7','8'], ['4','5','6','7','8'],
        ['6','7','8'], ['8']]
    ∧ claimPairsOK 6 [['0','1','2','3','4','5','6','7'],
        ['2','3','4','5','6','7','8'], ['4','5','6','7','8'],
        ['6','7','8'], ['8']] = false :=
  ⟨by decide, by decide⟩

/-- C1 (amended): for window size W > 0 and overlap O < W the chunker
returns exactly the windows text[i : i+W] for i = 0, W-O, 2(W-O), ...;
every consecutive pair whose first chunk has the full length W overlaps
in exactly O characters (pairs in the truncated tail of the text may
overlap in fewer), and the first chunk followed by every later chunk
stripped of its first O characters reconstitutes the original text. -/
theorem chunk_windows_amended (W O : Nat) (text : List Char)
    (hW : 0 < W) (hO : O < W) :
    chunk_text W O text = some (windowsSpec W O text) ∧
    overlapOK W O (windowsSpec W O text) = true ∧
    deOverlap O (windowsSpec W O text) = text := by
  have hw := chunk_text_eq_windows W O text hO
  refine ⟨hw, ?_, ?_⟩
  · by_cases he : text.isEmpty
    · have h0 := hw
      rw [chunk_text, if_pos he] at h0
      have hnil : ([] : List (List Char)) = windowsSpec W O text :=
        Option.some.inj h0
      rw [← hnil]
      rfl
    · rw [chunk_text, if_neg he] at hw
      exact chunkAux_overlap W O text hO text.length 0 _ hw
  · by_cases he : text.isEmpty
    · have h0 := hw
      rw [chunk_text, if_pos he] at h0
      have hnil : ([] : List (List Char)) = windowsSpec W O text :=
        Option.some.inj h0
      rw [← hnil]
      cases text with
      | nil => rfl
      | cons a l => simp [List.isEmpty] at he
    · rw [chunk_text, if_neg he] at hw
      have hL : 0 < text.length := by
        cases text with
        | nil => simp [List.isEmpty] at he
        | cons a l => simp
      rw [chunkAux, if_pos hL] at hw
      cases hx : chunkAux W O text text.length (0 + W - O) with
      | none => rw [hx] at hw; simp at hw
      | some cs' =>
        rw [hx, Option.map_some', Option.some.injEq] at hw
        have hfuel : text.length = (text.length - 1) + 1 := by omega
        rw [hfuel] at hx
        have hjoin := chunkAux_deOverlap W O text hO (text.length - 1)
          (0 + W - O) cs' hx
        rw [← hw, deOverlap, hjoin]
        have harg : 0 + W - O + O = W := by omega
        rw [harg]
        show (text.drop 0).take W ++ text.drop W = text
        rw [List.drop_zero, List.take_append_drop]

/-- Witness for C1: window 3, overlap 1 on abcde — the chunks are the
predicted windows, full-length pairs overlap in exactly 1 character,
and de-overlapping reconstitutes the text. -/
theorem chunk_windows_amended_wit :
    0 < 3 ∧ 1 < 3 ∧
    (chunk_text 3 1 ['a','b','c','d','e']
        = some [['a','b','c'], ['c','d','e'], ['e']] ∧
      overlapOK 3 1 [['a','b','c'], ['c','d','e'], ['e']] = true ∧
      deOverlap 1 [['a','b','c'], ['c','d','e'], ['e']] = ['a','b','c','d','e']) :=
  ⟨by decide, by decide,
    chunk_windows_amended 3 1 ['a','b','c','d','e'] (by decide) (by decide)⟩

/-- C2, counterexample: with window 2 and overlap 2 on the one-character
text a the advance step is 0 and the code does not clamp it: the
embedded loop returns none at its standard fuel and indeed at every
fuel, i.e. the source loop never terminates, contradicting the claim
that the chunker terminates for every overlap. -/
theorem chunk_divergence_cex :
    chunk_text 2 2 ['a'] = none ∧ chunkLoopsForever 2 2 ['a'] := by
  constructor
  · rfl
  · intro fuel
    induction fuel with
    | zero => rfl
    | succ n ih =>
      rw [chunkAux, if_pos (by decide : 0 < (['a'] : List Char).length)]
      rw [show chunkAux 2 2 ['a'] n (0 + 2 - 2) = none from ih]
      rfl

/-- C2 (amended): the chunking loop terminates on every text whenever
the overlap is strictly below the window size (the advance step is then
at least 1); for overlap at or above the window size on nonempty text
it never terminates, as the counterexample shows. -/
theorem chunk_terminates_amended (W O : Nat) (text : List Char) (hO : O < W) :
    (chunk_text W O text).isSome = true := by
  rw [chunk_text]
  by_cases he : text.isEmpty
  · rw [if_pos he]
    rfl
  · rw [if_neg he]
    exact chunkAux_isSome W O text hO text.length 0 (by omega)

/-- Witness for C2: window 2, overlap 1 on abc terminates. -/
theorem chunk_terminates_amended_wit :
    1 < 2 ∧ (chunk_text 2 1 ['a','b','c']).isSome = true :=
  ⟨by decide, chunk_terminates_amended 2 1 ['a','b','c'] (by decide)⟩

/-- C3: on an ask request whose cache entry exists (non-empty value, as
an empty value is Python-falsy and json.loads rejects it anyway) and
parses successfully, with use_cache enabled and redis reachable, the
pipeline returns the stored bundle verbatim and performs no further
work: the only external call in its trace is the cache get — no
embedding, no vector search, no completion, no write, no history. -/
theorem ask_cache_hit_short_circuit (env : AskEnv) (req : AskRequest)
    (s : String) (v : JVal)
    (h1 : req.use_cache = true) (h2 : env.redisAvailable = true)
    (h3 : env.cacheGet (cacheKey env req) = Except.ok (some s))
    (h4 : s.isEmpty = false) (h5 : env.parse s = some v) :
    ask env req = (AskOutcome.ok v, [Eff.cacheGet (cacheKey env req)]) := by
  rw [ask, if_pos (show (req.use_cache && env.redisAvailable) = true by
    rw [h1, h2]
    rfl)]
  simp only [h3, h4, h5]
  rfl

/-- Witness for C3: a concrete environment with a parsing cache entry
answers from the cache with a single get call. -/
theorem ask_cache_hit_short_circuit_wit :
    ask envHit reqA = (AskOutcome.ok (JVal.str ("stored answer")),
      [Eff.cacheGet (cacheKey envHit reqA)]) :=
  ask_cache_hit_short_circuit envHit reqA ("cachedvalue")
    (JVal.str ("stored answer")) rfl rfl rfl rfl rfl

/-- C10: embed_text catches every remote-call failure and returns the
deterministic fallback, so it never raises; consequently the Embedding
error HTTP 500 branch of the ask handler is unreachable — no ask
outcome, for any environment and request, is the embedding error. -/
theorem ask_embed_error_unreachable (env : AskEnv) (req : AskRequest) :
    isEmbErr (ask env req).1 = false := by
  have hmiss : ∀ key, isEmbErr (askMiss env req key).1 = false := by
    intro key
    simp only [askMiss, embed_text_eq]
    cases hs : env.search req.collection_name (embedVal env req.question) req.top_k with
    | error msg => rfl
    | ok hits =>
      simp only [hs]
      cases hc : env.complete (build_prompt req.question (hits.map hitText)) with
      | error msg => simp only [hc]; rfl
      | ok r => simp only [hc]; rfl
  rw [ask]
  split
  · split
    · exact hmiss _
    · exact hmiss _
    · split
      · exact hmiss _
      · split
        · rfl
        · exact hmiss _
  · exact hmiss _

/-- C9, counterexample: at the ingestion call site, with an API key
configured and the openai module importable, a failing remote embedding
call propagates out of Ingestor._embed (there is no try/except there)
instead of falling back to the deterministic vector, refuting the claim
that the fallback holds at both call sites. -/
theorem ingest_embed_propagates_cex :
    ingestEmbed envEmbedFail ['h','i'] = Except.error ("boom") := rfl

/-- C9 (amended): base_route.embed_text falls back to the deterministic
384-dimensional len(text)/100 vector both when the remote API is
unavailable (no truthy key, or openai missing) and when its call fails;
Ingestor._embed falls back only when the API is unavailable — with a
key configured, a remote failure propagates to the caller. -/
theorem embed_fallback_sites (aenv : AskEnv) (ienv : IngestEnv)
    (s : String) (t : List Char) (e e' : String) :
    ((pyTruthyStr aenv.apiKey && aenv.openaiAvailable) = false →
      embed_text aenv s = Except.ok (dummyVecS s)) ∧
    (aenv.remoteEmbed s = Except.error e →
      embed_text aenv s = Except.ok (dummyVecS s)) ∧
    ((pyTruthyStr ienv.apiKey && ienv.openaiAvailable) = false →
      ingestEmbed ienv t = Except.ok (dummyVecL t)) ∧
    ((pyTruthyStr ienv.apiKey && ienv.openaiAvailable) = true →
      ienv.remoteEmbed t = Except.error e' →
      ingestEmbed ienv t = Except.error e') := by
  refine ⟨?_, ?_, ?_, ?_⟩
  · intro h
    rw [embed_text, if_neg (by simp [h])]
  · intro h
    rw [embed_text]
    by_cases hc : (pyTruthyStr aenv.apiKey && aenv.openaiAvailable) = true
    · rw [if_pos hc, h]
    · rw [if_neg hc]
  · intro h
    rw [ingestEmbed, if_neg (by simp [h])]
  · intro h h'
    rw [ingestEmbed, if_pos h, h']

/-- Witness for C9: with no API key the ask-site embedder returns the
dummy vector; with a key and a failing remote call the ingest-site
embedder raises. -/
theorem embed_fallback_sites_wit :
    embed_text envHit ("hi") = Except.ok (dummyVecS ("hi")) ∧
    ingestEmbed envEmbedFail ['h'] = Except.error ("boom") :=
  ⟨(embed_fallback_sites envHit envEmbedFail ("hi") ['h'] ("no net") ("boom")).1 rfl,
    (embed_fallback_sites envHit envEmbedFail ("hi") ['h'] ("no net") ("boom")).2.2.2
      rfl rfl⟩

/-- C8: the claim (and the explicit HTTPException(400) branch of
routes.query_vectors) says a request supplying neither query texts nor
query embeddings is rejected with HTTP 400 before any external call;
the code instead obtains the chroma client and then always raises
TypeError at the get_or_create_collection call — the repository's own
wrapper accepts only name while routes.py passes embedding_function —
which the except-Exception handler turns into HTTP 500. Evaluating the
embedded endpoint at that invalid request yields the 500 with the
TypeError text, a trace containing the client acquisition and no
query call, and never the 400: the validation branch is dead code. -/
theorem query_vectors_typeerror_500 :
    query_vectors envQ reqQ
      = (QOutcome.httpError 500
          ("ChromaDB error: get_or_create_collection() got an unexpected keyword argument embedding_function"),
        [QEff.getClient]) := rfl

/-- C7: a saved file whose path is missing, empty or not on disk, or
whose read raises, is skipped (contributing no upserts and 0 to the
inserted count) while every other file is still ingested: ingest_files
on a list containing such a file equals ingest_files on the list with
that file removed, so no exception escapes because of it. -/
theorem ingest_skips_bad_file (env : IngestEnv) (ing : Ingestor)
    (xs ys : List SavedFile) (f : SavedFile) (hbad : badFile env f) :
    ingest_files env ing (xs ++ f :: ys) = ingest_files env ing (xs ++ ys) := by
  rw [ingest_files, ingest_files]
  exact ingestGo_skip env ing f ys hbad xs [] 0

/-- Witness for C7: adding a pathless file after a real one leaves the
ingestion result unchanged. -/
theorem ingest_skips_bad_file_wit :
    badFile envIngest fileMissing ∧
    ingest_files envIngest ingTiny [fileA, fileMissing]
      = ingest_files envIngest ingTiny [fileA] :=
  ⟨Or.inl rfl,
    ingest_skips_bad_file envIngest ingTiny [fileA] [] fileMissing (Or.inl rfl)⟩

/-- C4: every cache operation the ask handler performs — the lookup,
the corrupted-entry delete and the write — addresses the same key, and
that key is exactly the spec's format: prefix, colon, collection name,
colon, first 8 hex characters of the sha256 of the question. -/
theorem ask_cache_key_format (env : AskEnv) (req : AskRequest) (e : Eff) (k : String)
    (hmem : e ∈ (ask env req).2) (hk : effKey e = some k) :
    k = cacheKeySpec env req := by
  rw [← cacheKey_eq_spec]
  have hmiss := askMiss_keys env req (cacheKey env req)
  rw [ask] at hmem
  split at hmem
  · split at hmem
    · simp only [addEffs, List.singleton_append, List.mem_cons] at hmem
      rcases hmem with h | h
      · subst h
        simp only [effKey, Option.some.injEq] at hk
        exact hk.symm
      · exact hmiss e h k hk
    · simp only [addEffs, List.singleton_append, List.mem_cons] at hmem
      rcases hmem with h | h
      · subst h
        simp only [effKey, Option.some.injEq] at hk
        exact hk.symm
      · exact hmiss e h k hk
    · split at hmem
      · simp only [addEffs, List.singleton_append, List.mem_cons] at hmem
        rcases hmem with h | h
        · subst h
          simp only [effKey, Option.some.injEq] at hk
          exact hk.symm
        · exact hmiss e h k hk
      · split at hmem
        · simp only [List.mem_cons, List.not_mem_nil, or_false] at hmem
          subst hmem
          simp only [effKey, Option.some.injEq] at hk
          exact hk.symm
        · simp only [addEffs, swallow_eq, List.cons_append,
            List.singleton_append, List.mem_cons] at hmem
          rcases hmem with h | h | h
          · subst h
            simp only [effKey, Option.some.injEq] at hk
            exact hk.symm
          · subst h
            simp only [effKey, Option.some.injEq] at hk
            exact hk.symm
          · exact hmiss e h k hk
  · exact hmiss e hmem k hk

/-- Witness for C4: in the concrete hit environment the performed cache
get addresses exactly rag:default:01234567 — the prefix, the collection
and the first 8 hex characters of the (modelled) sha256 digest. -/
theorem ask_cache_key_format_wit :
    ("rag:default:01234567" : String) = cacheKeySpec envHit reqA :=
  ask_cache_key_format envHit reqA (Eff.cacheGet (cacheKey envHit reqA))
    ("rag:default:01234567") (by decide) (by decide)

/-- C5, counterexample: a cache entry holding the empty string exists
and fails to deserialize, yet the code treats it as a plain miss
(Python falsiness of the empty bytes) and never deletes it: the full
pipeline runs and the trace contains no delete call, refuting the
claim that every existing-but-unparsable entry is deleted. -/
theorem ask_empty_cached_no_delete_cex :
    ask envEmptyCache reqA
      = (AskOutcome.ok (respJVal ("an answer") [("doc.txt")] (some 10) 5),
        [Eff.cacheGet (cacheKey envEmptyCache reqA), Eff.embed,
          Eff.search ("default") (dummyVecS ("What is X?")) 2,
          Eff.complete (build_prompt ("What is X?") [("ctx one")]),
          Eff.cacheSetex (cacheKey envEmptyCache reqA) 3600 ("serialized"),
          Eff.history ("What is X?") ("an answer") (some 10) [("doc.txt")]]) := by
  rfl

/-- C5 (amended): a NON-empty cached value that fails to deserialize is
deleted (the delete attempt itself may fail, and its outcome is
ignored) and the request proceeds as a miss: the full pipeline — embed,
search, compose, complete, cache write, history scheduling — runs and
produces a fresh answer; the parse failure is never fatal. An empty
cached value is instead treated as a plain miss without deletion. -/
theorem ask_cache_corrupt_self_heal (env : AskEnv) (req : AskRequest)
    (s : String) (hits : List Hit) (r : String × Option Nat)
    (h1 : req.use_cache = true) (h2 : env.redisAvailable = true)
    (h3 : env.cacheGet (cacheKey env req) = Except.ok (some s))
    (h4 : s.isEmpty = false) (h5 : env.parse s = none)
    (h6 : env.search req.collection_name (embedVal env req.question) req.top_k
      = Except.ok hits)
    (h7 : env.complete (build_prompt req.question (hits.map hitText))
      = Except.ok r) :
    ask env req
      = (AskOutcome.ok (respJVal (pyStrip r.1) (hits.map hitSrc) r.2 env.elapsedMs),
        [Eff.cacheGet (cacheKey env req), Eff.cacheDelete (cacheKey env req),
          Eff.embed,
          Eff.search req.collection_name (embedVal env req.question) req.top_k,
          Eff.complete (build_prompt req.question (hits.map hitText)),
          Eff.cacheSetex (cacheKey env req) env.ttl
            (env.dumps (respJVal (pyStrip r.1) (hits.map hitSrc) r.2 env.elapsedMs)),
          Eff.history req.question (pyStrip r.1) r.2 (hits.map hitSrc)]) := by
  simp [ask, askMiss, embed_text_eq, h1, h2, h3, h4, h5, h6, h7, addEffs, swallow]

/-- Witness for C5: a concrete corrupt entry is deleted and recomputed,
with the full pipeline trace and the fresh answer. -/
theorem ask_cache_corrupt_self_heal_wit :
    ask envCorrupt reqA
      = (AskOutcome.ok (respJVal ("an answer") [("doc.txt")] (some 10) 5),
        [Eff.cacheGet (cacheKey envCorrupt reqA), Eff.cacheDelete (cacheKey envCorrupt reqA),
          Eff.embed,
          Eff.search ("default") (dummyVecS ("What is X?")) 2,
          Eff.complete (build_prompt ("What is X?") [("ctx one")]),
          Eff.cacheSetex (cacheKey envCorrupt reqA) 3600 ("serialized"),
          Eff.history ("What is X?") ("an answer") (some 10) [("doc.txt")]]) :=
  ask_cache_corrupt_self_heal envCorrupt reqA ("corrupt") [hitA]
    (("  an answer  "), some 10) rfl rfl rfl rfl rfl rfl rfl

/-- C6: a single ingested file whose text chunks into N chunks (with
embedding succeeding, here because no API key is configured) triggers
exactly ceil(N/64) upsert calls — full batches of 64 followed by one
partial batch of N mod 64 when nonzero — and the returned inserted
count equals N. -/
theorem ingest_batching (env : IngestEnv) (ing : Ingestor) (f : SavedFile)
    (p : String) (t : List Char) (cs : List (List Char))
    (hkey : env.apiKey = none)
    (hpath : f.path = some p) (hp : p.isEmpty = false)
    (hex : env.pathExists p = true)
    (hread : env.readText p = Except.ok t)
    (hchunk : chunk_text ing.chunk_size ing.overlap t = some cs) :
    (ingest_files env ing [f]).map (fun r => (r.1.map List.length, r.2))
      = some (List.replicate (cs.length / 64) 64
          ++ (if cs.length % 64 = 0 then [] else [cs.length % 64]),
        Except.ok cs.length)
    ∧ (ingest_files env ing [f]).map (fun r => r.1.length)
      = some ((cs.length + 63) / 64) := by
  have hec := embedChunks_spec env hkey f.filename cs 0 [] (by simp)
  have hpf : processFile env ing f = some (embedChunks env f.filename cs 0 []) := by
    simp only [processFile, hpath, hread, hex, hp]
    rw [if_neg (by simp)]
    rw [hchunk]
  rcases hB : embedChunks env f.filename cs 0 [] with ⟨bs, err⟩
  rw [hB] at hpf
  simp only [hB, List.length_nil] at hec
  obtain ⟨herr, hsizes⟩ := hec
  subst herr
  have hign : ingest_files env ing [f]
      = some (bs, Except.ok (0 + (bs.map List.length).sum)) := by
    rw [ingest_files, ingestGo, hpf]
    rfl
  rw [hign]
  constructor
  · simp only [Option.map_some', Option.some.injEq, Prod.mk.injEq]
    constructor
    · rw [hsizes, sizesSpec_closed cs.length 0 (by norm_num), Nat.zero_add]
    · rw [hsizes, sizesSpec_sum cs.length 0 (by norm_num), Nat.zero_add,
        Nat.zero_add]
  · simp only [Option.map_some', Option.some.injEq]
    have hlen : bs.length = (bs.map List.length).length := by simp
    rw [hlen, hsizes, sizesSpec_closed cs.length 0 (by norm_num), Nat.zero_add]
    by_cases hm : cs.length % 64 = 0
    · rw [if_pos hm]
      simp only [List.append_nil, List.length_replicate]
      omega
    · rw [if_neg hm]
      simp only [List.length_append, List.length_replicate, List.length_cons,
        List.length_nil]
      omega

set_option maxRecDepth 40000 in
/-- Witness for C6: a 130-character file with window 1 and overlap 0
chunks into 130 chunks and is upserted in three batches of sizes 64, 64
and 2, with inserted count 130. -/
theorem ingest_batching_wit :
    (ingest_files envIngest ingTiny [fileA]).map (fun r => (r.1.map List.length, r.2))
      = some ([64, 64, 2], Except.ok 130)
    ∧ (ingest_files envIngest ingTiny [fileA]).map (fun r => r.1.length) = some 3 :=
  ingest_batching envIngest ingTiny fileA ("a.txt") (List.replicate 130 'a')
    (List.replicate 130 (['a'])) rfl rfl rfl rfl rfl (by rfl)
